import Mathlib

/-!
Shallow embedding of the SLAC board-test scripts' sweep-and-verify core
(WREBTest.py / GREBTest.py and near-duplicates): unit converters,
ramp generator, pass/fail evaluator, dynamic ROI search, ASPIC noise
channel check and board-identity parsing.  Python floats are modelled
as exact rationals; Python `int()` truncation toward zero is `pyInt`.
-/

/-- Python `int()` applied to a float: truncation toward zero. -/
def pyInt (q : ℚ) : ℤ := if 0 ≤ q then ⌊q⌋ else -⌊-q⌋

/-- `voltsToDAC(volt, Rfb, Rin)` from WREBTest.py lines 104-112:
`dac = volt * 4095 / 5 / (-Rfb / Rin)`, then clamped above at 4095 and
below at 0.  The source returns the (float) value without `int()`. -/
def voltsToDAC (volt Rfb Rin : ℚ) : ℚ :=
  let dac := volt * 4095 / 5 / (-Rfb / Rin)
  let dac := if dac > 4095 then 4095 else dac
  let dac := if dac < 0 then 0 else dac
  dac

/-- `voltsToRailDAC(V, rf, ri)` from WREBTest.py lines 131-143: splits a
signed voltage into an (up, down) pair of DAC codes, truncated by
Python `int()`; no clamping is applied. -/
def voltsToRailDAC (V rf ri : ℚ) : ℤ × ℤ :=
  let p := if V ≥ 0 then
    ((V * 4095 * ri) / ((ri + rf) * 5), (0 : ℚ))
  else
    ((0 : ℚ), (-V * 4095 * ri) / (rf * 5))
  (pyInt p.1, pyInt p.2)

example : voltsToDAC 10 (499/10) 20 = 0 := by norm_num [voltsToDAC]

example : voltsToRailDAC (-3) 25 10 = (0, 982) := by
  norm_num [voltsToRailDAC, pyInt]

/-- `stepRange(start, end, step)` from WREBTest.py lines 94-101: the loop
`while start <= end: yield start; start += step`, collected into a list.
The guard `0 < step` makes the definition total; the source generator
simply never terminates when `step ≤ 0` and `start ≤ end`. -/
def stepRange (start endv step : ℚ) : List ℚ :=
  if hs : 0 < step then
    if hle : start ≤ endv then
      start :: stepRange (start + step) endv step
    else []
  else []
termination_by (⌊(endv - start) / step⌋ + 1).toNat
decreasing_by
  have hstep : step ≠ 0 := ne_of_gt hs
  have hq : (endv - (start + step)) / step = (endv - start) / step - 1 := by
    field_simp
    ring
  have hfl : ⌊(endv - (start + step)) / step⌋ = ⌊(endv - start) / step⌋ - 1 := by
    rw [hq]
    exact_mod_cast Int.floor_sub_int ((endv - start) / step) 1
  have hnn : (0 : ℚ) ≤ (endv - start) / step :=
    div_nonneg (by linarith) (le_of_lt hs)
  have hfl0 : (0 : ℤ) ≤ ⌊(endv - start) / step⌋ := Int.floor_nonneg.mpr hnn
  rw [hfl]
  omega

example : stepRange 4 (9/2) (1/4) = [4, 17/4, 9/2] := by
  rw [stepRange]
  norm_num
  rw [stepRange]
  norm_num
  rw [stepRange]
  norm_num
  rw [stepRange]
  norm_num

/-- The residual-error counter of the rail drivers (WREBTest.py
PCKRails.runTest lines 580-604 and duplicates): over
`for x, residual in enumerate(arr)`, count the x with
`abs(residual) > allowedError and ROI[0] <= x <= ROI[1]`. -/
def numErrors (residuals : List ℚ) (allowedError : ℚ) (roi : ℕ × ℕ) : ℕ :=
  residuals.enum.countP fun xr =>
    decide (allowedError < |xr.2|) && decide (roi.1 ≤ xr.1) && decide (xr.1 ≤ roi.2)

/-- The verdict of the same drivers: `passed = "PASS"` initially, set to
`"FAIL"` iff `numErrors > maxFails` (no slope check in these drivers). -/
def railVerdict (residuals : List ℚ) (allowedError : ℚ) (maxFails : ℕ) (roi : ℕ × ℕ) :
    String :=
  if maxFails < numErrors residuals allowedError roi then "FAIL" else "PASS"

/-- `np.mean` on a 1-d array, as used by ASPICNoise.runTest. -/
def npMean (data : List ℚ) : ℚ := data.sum / data.length

/-- The square of `np.std` (population standard deviation) on a 1-d
array: the mean of the squared deviations from the mean.  Kept in squared
form so the embedding stays inside ℚ; every comparison the source makes
with `np.std` is embedded as the equivalent squared comparison. -/
def npStdSq (data : List ℚ) : ℚ := npMean (data.map fun x => (x - npMean data) ^ 2)

/-- `rejectOutliers(data, sigma)` from WREBTest.py lines 127-128:
`data[abs(data - np.mean(data)) < sigma * np.std(data)]`, with the
comparison in squared form (both sides are nonnegative for the
`sigma = 4.0` call site). -/
def rejectOutliers (data : List ℚ) (sigma : ℚ) : List ℚ :=
  data.filter fun x => decide ((x - npMean data) ^ 2 < sigma ^ 2 * npStdSq data)

/-- One channel of ASPICNoise.runTest (WREBTest.py lines 1528-1548):
`mu, sigma = np.mean(imgData), np.std(imgData)`; the channel is flagged
failing iff `sigma > errorLevel` (squared form); only afterwards is
`imgData = rejectOutliers(imgData, 4.0)` applied, for the histogram.
Returns (failed flag, data used for the plot). -/
def aspicChannelResult (imgData : List ℚ) (errorLevel : ℚ) : Bool × List ℚ :=
  let failed := decide (errorLevel ^ 2 < npStdSq imgData)
  let plotted := rejectOutliers imgData 4
  (failed, plotted)

/-- The window test of SCKRailsDiverging.runTest (GREBTest.py lines
727-735): `(-0.0 < U) & (U < 7.0) & (-7.0 < L) & (L < 0.0)` at one ramp
index, on the measured upper (u) and lower (l) rail values. -/
def sckWindow (u l : ℚ) : Bool :=
  decide ((0 : ℚ) < u) && decide (u < 7) && decide ((-7 : ℚ) < l) && decide (l < 0)

/-- The indices selected by the boolean mask
`iterationValues[(-0.0 < U) & (U < 7.0) & (-7.0 < L) & (L < 0.0)]`,
where `iterationValues = np.arange(...)` enumerates the ramp (its length
equals the length of the measured arrays in every run). -/
def satIndices (U L : List ℚ) : List ℕ :=
  (List.range U.length).filter fun i => sckWindow (U.getD i 0) (L.getD i 0)

/-- The dynamic ROI of SCKRailsDiverging.runTest (GREBTest.py):
`np.take(iterationValues[mask], [1, -1])` — element 1 and the last
element of the selected indices — with the surrounding
`except IndexError: ROI = [iterationValues[0], iterationValues[-1]]`
fallback when fewer than two indices are selected. -/
def divergingROI (U L : List ℚ) : ℕ × ℕ :=
  match satIndices U L with
  | _ :: second :: rest => (second, (second :: rest).getLast (by simp))
  | _ => (0, U.length - 1)

/-- Python `hex()` of an integer, as a character list: `0x` followed by
lowercase base-16 digits, with a leading `-` for negative input. -/
def pyHex (n : ℤ) : List Char :=
  if n < 0 then '-' :: '0' :: 'x' :: Nat.toDigits 16 (-n).toNat
  else '0' :: 'x' :: Nat.toDigits 16 n.toNat

/-- Models Python `int(str)` as used on the serial-number response: an
optional sign followed by decimal digits, `None` (ValueError) otherwise;
Python's surrounding-whitespace tolerance is not modelled. -/
def parseDecInt (cs : List Char) : Option ℤ :=
  match cs with
  | '-' :: rest => (parseDecDigits rest).map fun z => -z
  | '+' :: rest => parseDecDigits rest
  | _ => parseDecDigits cs
where
  parseDecDigits (ds : List Char) : Option ℤ :=
    if ds ≠ [] ∧ ds.all (·.isDigit) then
      some (ds.foldl (fun a c => a * 10 + ((c.toNat : ℤ) - 48)) 0)
    else none

/-- Python `s.split(": ")`: split a character list at every
occurrence of the two-character separator `": "`, scanning left to
right. -/
def splitColonSpace : List Char → List (List Char)
  | ':' :: ' ' :: rest => [] :: splitColonSpace rest
  | c :: rest =>
    match splitColonSpace rest with
    | p :: ps => (c :: p) :: ps
    | [] => [[c]]
  | [] => [[]]

/-- One field of the board-identity quadruple: the sentinel −1 (an int
in the source) or a successfully parsed string. -/
abbrev BoardField := ℤ ⊕ List Char

/-- The `return -1, -1, -1, -1` quadruple of getBoardInfo. -/
def boardSentinel : BoardField × BoardField × BoardField × BoardField :=
  (Sum.inl (-1), Sum.inl (-1), Sum.inl (-1), Sum.inl (-1))

/-- `getBoardInfo()` from WREBTest.py lines 1672-1688 (identical in
GREBTest.py lines 1736-1752), as a function of the two remote response
strings.  `none` models an uncaught IndexError (a response with no
`": "`, or an empty part after it); the `except ValueError` branch that
catches a failed `int()` parse returns the sentinel quadruple. -/
def getBoardInfo (serialResp regResp : List Char) :
    Option (BoardField × BoardField × BoardField × BoardField) :=
  match parseDecInt (serialResp.filter fun c => c ≠ 'L') with
  | none => some boardSentinel
  | some n =>
    let boardID := pyHex n
    let response := regResp
    if response.length ≠ 17 ∨ boardID = ('0' :: 'x' :: '0' :: []) then some boardSentinel
    else
      match (splitColonSpace response)[1]? with
      | none => none
      | some FPGAInfo =>
        if FPGAInfo = [] then none
        else
          let boardType := FPGAInfo.take 1
          let linkVersion := (FPGAInfo.drop 1).take 3
          let FPGAVersion := FPGAInfo.drop 4
          if boardType = ('0' :: []) ∨ linkVersion = ('0' :: '0' :: '0' :: []) then
            some boardSentinel
          else
            some (Sum.inr boardID, Sum.inr boardType, Sum.inr linkVersion, Sum.inr FPGAVersion)

example : divergingROI [1, 1, 1] [-1, -1, -1] = (1, 2) := by
  have hsat : satIndices [1, 1, 1] [-1, -1, -1] = [0, 1, 2] := by
    norm_num [satIndices, sckWindow, List.range_succ]
  simp [divergingROI, hsat]

example : getBoardInfo ('1' :: '2' :: '3' :: []) "0000001: b0200020".toList =
    some (Sum.inr ('0' :: 'x' :: '7' :: 'b' :: []), Sum.inr ('b' :: []),
      Sum.inr ('0' :: '2' :: '0' :: []), Sum.inr ('0' :: '0' :: '2' :: '0' :: [])) := by
  decide

/-! ### Helper lemmas -/

lemma pyInt_of_nonneg {q : ℚ} (h : 0 ≤ q) : pyInt q = ⌊q⌋ := by
  simp [pyInt, h]

lemma pyInt_mono_of_nonneg {a b : ℚ} (ha : 0 ≤ a) (hab : a ≤ b) :
    pyInt a ≤ pyInt b := by
  rw [pyInt_of_nonneg ha, pyInt_of_nonneg (le_trans ha hab)]
  exact Int.floor_le_floor hab

lemma pyInt_zero : pyInt 0 = 0 := by norm_num [pyInt]

lemma le_getLast_of_pairwise_lt :
    ∀ (l : List ℕ) (hne : l ≠ []), l.Pairwise (· < ·) →
      ∀ x ∈ l, x ≤ l.getLast hne
  | [a], _, _, x, hx => by
    simp only [List.mem_singleton] at hx
    simp [hx]
  | a :: b :: t, _, hp, x, hx => by
    rw [List.getLast_cons (by simp)]
    rcases List.mem_cons.mp hx with rfl | hx2
    · have hlast : (b :: t).getLast (by simp) ∈ b :: t := List.getLast_mem _
      exact le_of_lt ((List.pairwise_cons.mp hp).1 _ hlast)
    · exact le_getLast_of_pairwise_lt (b :: t) (by simp) (List.pairwise_cons.mp hp).2 x hx2

lemma second_le_of_pairwise_lt {a b : ℕ} {t : List ℕ}
    (hp : (a :: b :: t).Pairwise (· < ·)) :
    ∀ x ∈ a :: b :: t, x ≠ a → b ≤ x := by
  intro x hx hxa
  rcases List.mem_cons.mp hx with rfl | hx2
  · exact absurd rfl hxa
  · rcases List.mem_cons.mp hx2 with rfl | hx3
    · exact le_refl _
    · exact le_of_lt ((List.pairwise_cons.mp (List.pairwise_cons.mp hp).2).1 _ hx3)

/-! ### Claim theorems -/

/-- C2: for every volt and nonzero Rfb, Rin, `voltsToDAC` returns a value
in [0, 4095]; it equals the raw expression `volt * 4095 / 5 / (-Rfb/Rin)`
whenever that expression lies in [0, 4095] and is clamped to the nearer
boundary otherwise; under the Rfb < 0, Rin > 0 convention the result is
monotone non-decreasing in volt and saturates exactly at the boundary
codes 0 and 4095. -/
theorem voltsToDAC_spec (volt Rfb Rin : ℚ) (hf : Rfb ≠ 0) (hi : Rin ≠ 0) :
    (0 ≤ voltsToDAC volt Rfb Rin ∧ voltsToDAC volt Rfb Rin ≤ 4095) ∧
    (0 ≤ volt * 4095 / 5 / (-Rfb / Rin) → volt * 4095 / 5 / (-Rfb / Rin) ≤ 4095 →
      voltsToDAC volt Rfb Rin = volt * 4095 / 5 / (-Rfb / Rin)) ∧
    (4095 < volt * 4095 / 5 / (-Rfb / Rin) → voltsToDAC volt Rfb Rin = 4095) ∧
    (volt * 4095 / 5 / (-Rfb / Rin) < 0 → voltsToDAC volt Rfb Rin = 0) ∧
    (∀ v₁ v₂ : ℚ, Rfb < 0 → 0 < Rin → v₁ ≤ v₂ →
      voltsToDAC v₁ Rfb Rin ≤ voltsToDAC v₂ Rfb Rin) := by
  refine ⟨?_, ?_, ?_, ?_, ?_⟩
  · unfold voltsToDAC
    dsimp only
    split_ifs <;> constructor <;> linarith
  · intro h0 h1
    unfold voltsToDAC
    dsimp only
    split_ifs <;> linarith
  · intro h
    unfold voltsToDAC
    dsimp only
    split_ifs <;> linarith
  · intro h
    unfold voltsToDAC
    dsimp only
    split_ifs <;> linarith
  · intro v₁ v₂ hfneg hipos hv
    have hc : 0 < -Rfb / Rin := div_pos (by linarith) hipos
    have hraw : v₁ * 4095 / 5 / (-Rfb / Rin) ≤ v₂ * 4095 / 5 / (-Rfb / Rin) := by
      gcongr
    unfold voltsToDAC
    dsimp only
    split_ifs <;> linarith

/-- C2 witness at volt = −8, Rfb = 49.9, Rin = 20. -/
theorem voltsToDAC_spec_witness :
    ((499 : ℚ)/10 ≠ 0 ∧ (20 : ℚ) ≠ 0) ∧
    ((0 ≤ voltsToDAC (-8) (499/10) 20 ∧ voltsToDAC (-8) (499/10) 20 ≤ 4095) ∧
    (0 ≤ ((-8 : ℚ)) * 4095 / 5 / (-(499/10) / 20) →
      ((-8 : ℚ)) * 4095 / 5 / (-(499/10) / 20) ≤ 4095 →
      voltsToDAC (-8) (499/10) 20 = ((-8 : ℚ)) * 4095 / 5 / (-(499/10) / 20)) ∧
    (4095 < ((-8 : ℚ)) * 4095 / 5 / (-(499/10) / 20) → voltsToDAC (-8) (499/10) 20 = 4095) ∧
    (((-8 : ℚ)) * 4095 / 5 / (-(499/10) / 20) < 0 → voltsToDAC (-8) (499/10) 20 = 0) ∧
    (∀ v₁ v₂ : ℚ, (499 : ℚ)/10 < 0 → (0 : ℚ) < 20 → v₁ ≤ v₂ →
      voltsToDAC v₁ (499/10) 20 ≤ voltsToDAC v₂ (499/10) 20)) :=
  ⟨⟨by norm_num, by norm_num⟩, voltsToDAC_spec (-8) (499/10) 20 (by norm_num) (by norm_num)⟩

/-- C3 counterexample: `voltsToDAC(10.0, Rfb=49.9, Rin=20)` does not
return 4095; it returns 0. -/
theorem voltsToDAC_scenario3_counterexample :
    voltsToDAC 10 (499/10) 20 ≠ 4095 ∧ voltsToDAC 10 (499/10) 20 = 0 := by
  norm_num [voltsToDAC]

/-- C3 amended: `voltsToDAC(10.0, Rfb=49.9, Rin=20)` returns the clamped
value 0 — with this (positive-Rfb) sign convention the raw code for a
positive voltage is negative, so the call saturates at the lower
boundary code 0, not at 4095. -/
theorem voltsToDAC_scenario3 :
    voltsToDAC 10 (499/10) 20 = 0 ∧ 10 * 4095 / 5 / (-(499/10) / 20) < (0 : ℚ) := by
  norm_num [voltsToDAC]

/-- C4: for rf, ri > 0, `voltsToRailDAC` returns down = 0 for V ≥ 0 and
up = 0 for V < 0, and the other component is monotone non-decreasing in
the magnitude of V. -/
theorem voltsToRailDAC_spec (rf ri : ℚ) (hrf : 0 < rf) (hri : 0 < ri) :
    (∀ V : ℚ, 0 ≤ V → (voltsToRailDAC V rf ri).2 = 0) ∧
    (∀ V : ℚ, V < 0 → (voltsToRailDAC V rf ri).1 = 0) ∧
    (∀ V₁ V₂ : ℚ, 0 ≤ V₁ → V₁ ≤ V₂ →
      (voltsToRailDAC V₁ rf ri).1 ≤ (voltsToRailDAC V₂ rf ri).1) ∧
    (∀ V₁ V₂ : ℚ, V₂ ≤ V₁ → V₁ < 0 →
      (voltsToRailDAC V₁ rf ri).2 ≤ (voltsToRailDAC V₂ rf ri).2) := by
  have hsum : 0 < (ri + rf) * 5 := by linarith
  refine ⟨?_, ?_, ?_, ?_⟩
  · intro V hV
    unfold voltsToRailDAC
    dsimp only
    rw [if_pos (by exact hV)]
    exact pyInt_zero
  · intro V hV
    unfold voltsToRailDAC
    dsimp only
    rw [if_neg (by exact not_le.mpr hV)]
    exact pyInt_zero
  · intro V₁ V₂ h0 h12
    unfold voltsToRailDAC
    dsimp only
    rw [if_pos (by exact h0), if_pos (by exact le_trans h0 h12)]
    refine pyInt_mono_of_nonneg ?_ ?_
    · positivity
    · refine div_le_div_of_nonneg_right ?_ hsum.le
      exact mul_le_mul_of_nonneg_right (mul_le_mul_of_nonneg_right h12 (by norm_num))
        (le_of_lt hri)
  · intro V₁ V₂ h21 h10
    unfold voltsToRailDAC
    dsimp only
    rw [if_neg (by exact not_le.mpr h10), if_neg (by exact not_le.mpr (by linarith))]
    refine pyInt_mono_of_nonneg ?_ ?_
    · have hV1 : 0 ≤ -V₁ := by linarith
      positivity
    · refine div_le_div_of_nonneg_right ?_ (by linarith : (0 : ℚ) ≤ rf * 5)
      exact mul_le_mul_of_nonneg_right
        (mul_le_mul_of_nonneg_right (by linarith) (by norm_num)) (le_of_lt hri)

/-- C4 witness at rf = 25, ri = 10. -/
theorem voltsToRailDAC_spec_witness :
    ((0 : ℚ) < 25 ∧ (0 : ℚ) < 10) ∧
    ((∀ V : ℚ, 0 ≤ V → (voltsToRailDAC V 25 10).2 = 0) ∧
    (∀ V : ℚ, V < 0 → (voltsToRailDAC V 25 10).1 = 0) ∧
    (∀ V₁ V₂ : ℚ, 0 ≤ V₁ → V₁ ≤ V₂ →
      (voltsToRailDAC V₁ 25 10).1 ≤ (voltsToRailDAC V₂ 25 10).1) ∧
    (∀ V₁ V₂ : ℚ, V₂ ≤ V₁ → V₁ < 0 →
      (voltsToRailDAC V₁ 25 10).2 ≤ (voltsToRailDAC V₂ 25 10).2)) :=
  ⟨⟨by norm_num, by norm_num⟩, voltsToRailDAC_spec 25 10 (by norm_num) (by norm_num)⟩

/-- C5 counterexample: `voltsToRailDAC(-3.0, rf=25.0, ri=10.0)` does not
return down = 983; exact truncation of 3·4095·10/(25·5) = 982.8 gives
982. -/
theorem voltsToRailDAC_scenario4_counterexample :
    voltsToRailDAC (-3) 25 10 ≠ (0, 983) ∧
    pyInt ((3 : ℚ) * 4095 * 10 / (25 * 5)) = 982 := by
  constructor
  · intro h
    have h2 : voltsToRailDAC (-3) 25 10 = (0, 982) := by
      norm_num [voltsToRailDAC, pyInt]
    rw [h2] at h
    exact absurd (congrArg Prod.snd h) (by norm_num)
  · norm_num [pyInt]

/-- C5 amended: `voltsToRailDAC(-3.0, rf=25.0, ri=10.0)` returns up = 0
and down = 982, the integer truncation of 3·4095·10/(25·5) = 982.8 (the
spec's value 983 came from a wrong evaluation of the same expression). -/
theorem voltsToRailDAC_scenario4 :
    voltsToRailDAC (-3) 25 10 = (0, 982) ∧
    pyInt ((3 : ℚ) * 4095 * 10 / (25 * 5)) = 982 ∧
    (3 : ℚ) * 4095 * 10 / (25 * 5) = 4914 / 5 := by
  refine ⟨by norm_num [voltsToRailDAC, pyInt], by norm_num [pyInt], by norm_num⟩

/-- C10: `voltsToRailDAC` applies no 12-bit saturation: at V = −20,
rf = 10, ri = 100 (both resistances positive) the down component is
163800, far beyond 4095. -/
theorem voltsToRailDAC_no_saturation :
    (0 : ℚ) < 10 ∧ (0 : ℚ) < 100 ∧
    (voltsToRailDAC (-20) 10 100).2 = 163800 ∧ 4095 < (voltsToRailDAC (-20) 10 100).2 := by
  norm_num [voltsToRailDAC, pyInt]

/-- C1: the verdict of the residual evaluator is PASS iff the number of
ROI indices with |residual| > allowedError is at most maxFails, and for
residuals [0.05, 0.2, 0.05] with allowedError = 0.1 and ROI = [0, 2] the
error count is 1, so the verdict is PASS iff maxFails ≥ 1. -/
theorem railVerdict_pass_iff :
    (∀ (residuals : List ℚ) (allowedError : ℚ) (maxFails : ℕ) (roi : ℕ × ℕ),
      (railVerdict residuals allowedError maxFails roi = "PASS" ↔
        numErrors residuals allowedError roi ≤ maxFails)) ∧
    numErrors [1/20, 1/5, 1/20] (1/10) (0, 2) = 1 ∧
    (∀ maxFails : ℕ,
      (railVerdict [1/20, 1/5, 1/20] (1/10) maxFails (0, 2) = "PASS" ↔ 1 ≤ maxFails)) := by
  have hgen : ∀ (residuals : List ℚ) (allowedError : ℚ) (maxFails : ℕ) (roi : ℕ × ℕ),
      (railVerdict residuals allowedError maxFails roi = "PASS" ↔
        numErrors residuals allowedError roi ≤ maxFails) := by
    intro residuals allowedError maxFails roi
    unfold railVerdict
    split_ifs with h
    · constructor
      · intro hc
        exact absurd hc (by decide)
      · intro hle
        omega
    · constructor
      · intro _
        omega
      · intro _
        rfl
  have hcount : numErrors [1/20, 1/5, 1/20] (1/10) (0, 2) = 1 := by
    have h1 : |(1 : ℚ)/20| = 1/20 := by
      rw [abs_of_nonneg]
      norm_num
    have h2 : |(1 : ℚ)/5| = 1/5 := by
      rw [abs_of_nonneg]
      norm_num
    norm_num [numErrors, List.enum, List.enumFrom, List.countP_cons, h1, h2]
  refine ⟨hgen, hcount, fun maxFails => ?_⟩
  rw [hgen, hcount]

/-- C7: the ramp generator is inclusive of the stop boundary through its
`<=` comparison: stepRange 0 5 0.25 yields exactly the 21 values
0, 0.25, ..., 5.0, the final point 5.0 included. -/
theorem stepRange_zero_five_quarter :
    stepRange 0 5 (1/4) =
      [0, 1/4, 1/2, 3/4, 1, 5/4, 3/2, 7/4, 2, 9/4, 5/2, 11/4, 3,
        13/4, 7/2, 15/4, 4, 17/4, 9/2, 19/4, 5] ∧
    (stepRange 0 5 (1/4)).length = 21 := by
  have h : stepRange 0 5 (1/4) =
      [0, 1/4, 1/2, 3/4, 1, 5/4, 3/2, 7/4, 2, 9/4, 5/2, 11/4, 3,
        13/4, 7/2, 15/4, 4, 17/4, 9/2, 19/4, 5] := by
    repeat
      rw [stepRange]
      norm_num
  exact ⟨h, by rw [h]; rfl⟩

/-- C8 counterexample: for the pixel sample of sixteen 0s and one 34,
the channel is flagged failing (the pre-rejection variance 64 exceeds
5.5² = 30.25), yet after the one rejectOutliers(…, 4.0) pass the
remaining data are the sixteen 0s, whose standard deviation 0 does not
exceed the threshold — so the flag is not computed on the post-rejection
data. -/
theorem aspicChannel_counterexample :
    (aspicChannelResult [0, 0, 0, 0, 0, 0, 0, 0, 0, 0, 0, 0, 0, 0, 0, 0, 34] (11/2)).1
      = true ∧
    rejectOutliers [0, 0, 0, 0, 0, 0, 0, 0, 0, 0, 0, 0, 0, 0, 0, 0, 34] 4
      = [0, 0, 0, 0, 0, 0, 0, 0, 0, 0, 0, 0, 0, 0, 0, 0] ∧
    ¬ ((11/2 : ℚ) ^ 2 <
      npStdSq (rejectOutliers [0, 0, 0, 0, 0, 0, 0, 0, 0, 0, 0, 0, 0, 0, 0, 0, 34] 4)) := by
  have hmean : npMean [0, 0, 0, 0, 0, 0, 0, 0, 0, 0, 0, 0, 0, 0, 0, 0, 34] = 2 := by
    norm_num [npMean]
  have hvar : npStdSq [0, 0, 0, 0, 0, 0, 0, 0, 0, 0, 0, 0, 0, 0, 0, 0, 34] = 64 := by
    norm_num [npStdSq, npMean]
  have hrej : rejectOutliers [0, 0, 0, 0, 0, 0, 0, 0, 0, 0, 0, 0, 0, 0, 0, 0, 34] 4
      = [0, 0, 0, 0, 0, 0, 0, 0, 0, 0, 0, 0, 0, 0, 0, 0] := by
    norm_num [rejectOutliers, hmean, hvar]
  refine ⟨?_, hrej, ?_⟩
  · simp only [aspicChannelResult, hvar]
    norm_num
  · rw [hrej]
    norm_num [npStdSq, npMean]

/-- C8 amended: in ASPICNoise.runTest the standard deviation compared
against errorLevel = 5.5 is the one of the raw per-channel pixel data,
computed before outlier rejection; a channel is flagged failing iff that
pre-rejection standard deviation exceeds the threshold, and
rejectOutliers(…, 4.0) is applied only afterwards, to the data used for
the histogram plot. -/
theorem aspicChannelResult_flag_iff (imgData : List ℚ) (errorLevel : ℚ) :
    ((aspicChannelResult imgData errorLevel).1 = true ↔
      errorLevel ^ 2 < npStdSq imgData) ∧
    (aspicChannelResult imgData errorLevel).2 = rejectOutliers imgData 4 := by
  constructor
  · simp [aspicChannelResult]
  · rfl

/-- C6 counterexample: for measured rails U = [1,1,1], L = [−1,−1,−1]
every ramp index 0, 1, 2 satisfies the window, so the claim predicts
ROI = (0, 2) (first and last satisfying index); the code's
`np.take(..., [1, -1])` yields (1, 2) instead. -/
theorem divergingROI_counterexample :
    satIndices [1, 1, 1] [-1, -1, -1] = [0, 1, 2] ∧
    divergingROI [1, 1, 1] [-1, -1, -1] = (1, 2) ∧
    divergingROI [1, 1, 1] [-1, -1, -1] ≠ (0, 2) := by
  have hsat : satIndices [1, 1, 1] [-1, -1, -1] = [0, 1, 2] := by
    norm_num [satIndices, sckWindow, List.range_succ]
  have hroi : divergingROI [1, 1, 1] [-1, -1, -1] = (1, 2) := by
    simp [divergingROI, hsat]
  refine ⟨hsat, hroi, ?_⟩
  rw [hroi]
  intro h
  exact absurd (congrArg Prod.fst h) (by norm_num)

/-- C6 amended: in the diverging-rails ROI search, whenever at least two
ramp indices satisfy the window, ROI[1] is the largest satisfying index
and ROI[0] is the *second*-smallest satisfying index (there is exactly
one satisfying index below it); with fewer than two satisfying indices
the GREB driver falls back to the full range (0, n−1). -/
theorem divergingROI_second_and_last (U L : List ℚ)
    (h2 : 2 ≤ (satIndices U L).length) :
    (∀ i, i ∈ satIndices U L ↔
      i < U.length ∧ sckWindow (U.getD i 0) (L.getD i 0) = true) ∧
    (divergingROI U L).1 ∈ satIndices U L ∧
    (divergingROI U L).2 ∈ satIndices U L ∧
    (∀ i ∈ satIndices U L, i ≤ (divergingROI U L).2) ∧
    (∃ m ∈ satIndices U L, m < (divergingROI U L).1 ∧
      ∀ i ∈ satIndices U L, i ≠ m → (divergingROI U L).1 ≤ i) := by
  have hmem : ∀ i, i ∈ satIndices U L ↔
      i < U.length ∧ sckWindow (U.getD i 0) (L.getD i 0) = true := by
    intro i
    simp [satIndices, List.mem_filter, List.mem_range]
  have hpw : (satIndices U L).Pairwise (· < ·) :=
    List.Pairwise.filter _ (List.pairwise_lt_range _)
  rcases hl : satIndices U L with _ | ⟨a, _ | ⟨b, t⟩⟩
  · rw [hl] at h2
    simp at h2
  · rw [hl] at h2
    simp at h2
  · rw [hl] at hpw
    have hroi : divergingROI U L = (b, (b :: t).getLast (by simp)) := by
      unfold divergingROI
      rw [hl]
    have hlast_mem : (b :: t).getLast (by simp) ∈ a :: b :: t := by
      exact List.mem_cons_of_mem a (List.getLast_mem _)
    have hlast_eq : (a :: b :: t).getLast (by simp) = (b :: t).getLast (by simp) :=
      List.getLast_cons (by simp)
    rw [hl] at hmem
    refine ⟨hmem, ?_, ?_, ?_, ?_⟩
    · rw [hroi]
      exact List.mem_cons_of_mem a (List.mem_cons_self b t)
    · rw [hroi]
      exact hlast_mem
    · intro i hi
      rw [hroi]
      have hle := le_getLast_of_pairwise_lt (a :: b :: t) (by simp) hpw i hi
      rw [hlast_eq] at hle
      exact hle
    · refine ⟨a, ?_, ?_, ?_⟩
      · exact List.mem_cons_self a _
      · rw [hroi]
        exact (List.pairwise_cons.mp hpw).1 b (List.mem_cons_self b t)
      · intro i hi hne
        rw [hroi]
        exact second_le_of_pairwise_lt hpw i hi hne

/-- C6 witness for the amended claim, at U = [1, 1], L = [−1, −1]:
indices 0 and 1 both satisfy the window and the code returns
ROI = (1, 1). -/
theorem divergingROI_second_and_last_witness :
    2 ≤ (satIndices [1, 1] [-1, -1]).length ∧
    ((∀ i, i ∈ satIndices [1, 1] [-1, -1] ↔
      i < ([(1 : ℚ), 1]).length ∧
        sckWindow (([(1 : ℚ), 1]).getD i 0) (([(-1 : ℚ), -1]).getD i 0) = true) ∧
    (divergingROI [1, 1] [-1, -1]).1 ∈ satIndices [1, 1] [-1, -1] ∧
    (divergingROI [1, 1] [-1, -1]).2 ∈ satIndices [1, 1] [-1, -1] ∧
    (∀ i ∈ satIndices [1, 1] [-1, -1], i ≤ (divergingROI [1, 1] [-1, -1]).2) ∧
    (∃ m ∈ satIndices [1, 1] [-1, -1], m < (divergingROI [1, 1] [-1, -1]).1 ∧
      ∀ i ∈ satIndices [1, 1] [-1, -1], i ≠ m → (divergingROI [1, 1] [-1, -1]).1 ≤ i)) :=
  ⟨by norm_num [satIndices, sckWindow, List.range_succ],
    divergingROI_second_and_last [1, 1] [-1, -1]
      (by norm_num [satIndices, sckWindow, List.range_succ])⟩

/-- C9: board-identity parsing is all-or-nothing: whenever getBoardInfo
returns normally it returns either the sentinel quadruple
(−1, −1, −1, −1) or a quadruple of four parsed string fields with the
board id nonzero (not "0x0"), the register response of the expected
17-character shape, board_type ≠ "0" and link_version ≠ "000"; it never
mixes valid fields and sentinels. -/
theorem getBoardInfo_allOrNothing (s r : List Char)
    (q : BoardField × BoardField × BoardField × BoardField)
    (h : getBoardInfo s r = some q) :
    q = boardSentinel ∨
    ∃ id bt lv fv, q = (Sum.inr id, Sum.inr bt, Sum.inr lv, Sum.inr fv) ∧
      id ≠ ('0' :: 'x' :: '0' :: []) ∧ r.length = 17 ∧
      bt ≠ ('0' :: []) ∧ lv ≠ ('0' :: '0' :: '0' :: []) := by
  unfold getBoardInfo at h
  split at h
  · left
    exact (Option.some.injEq _ _ ▸ h).symm
  · rename_i n hparse
    dsimp only at h
    split at h
    · left
      exact (Option.some.injEq _ _ ▸ h).symm
    · rename_i hcond
      push_neg at hcond
      split at h
      · exact absurd h (by simp)
      · rename_i FPGAInfo hsplit
        split at h
        · exact absurd h (by simp)
        · split at h
          · left
            exact (Option.some.injEq _ _ ▸ h).symm
          · rename_i hlast
            push_neg at hlast
            right
            refine ⟨pyHex n, FPGAInfo.take 1, (FPGAInfo.drop 1).take 3, FPGAInfo.drop 4,
              (Option.some.injEq _ _ ▸ h).symm, ?_, hcond.1, hlast.1, hlast.2⟩
            exact hcond.2

/-- C9 witness: a serial response "123" and a well-shaped 17-character
register response parse to a fully valid quadruple. -/
theorem getBoardInfo_allOrNothing_witness :
    getBoardInfo ('1' :: '2' :: '3' :: []) "0000001: b0200020".toList =
      some (Sum.inr ('0' :: 'x' :: '7' :: 'b' :: []), Sum.inr ('b' :: []),
        Sum.inr ('0' :: '2' :: '0' :: []), Sum.inr ('0' :: '0' :: '2' :: '0' :: [])) ∧
    ((Sum.inr ('0' :: 'x' :: '7' :: 'b' :: []), Sum.inr ('b' :: []),
        Sum.inr ('0' :: '2' :: '0' :: []),
        (Sum.inr ('0' :: '0' :: '2' :: '0' :: []) : BoardField)) = boardSentinel ∨
      ∃ id bt lv fv,
        ((Sum.inr ('0' :: 'x' :: '7' :: 'b' :: []), Sum.inr ('b' :: []),
          Sum.inr ('0' :: '2' :: '0' :: []),
          (Sum.inr ('0' :: '0' :: '2' :: '0' :: []) : BoardField)) :
            BoardField × BoardField × BoardField × BoardField) =
          (Sum.inr id, Sum.inr bt, Sum.inr lv, Sum.inr fv) ∧
        id ≠ ('0' :: 'x' :: '0' :: []) ∧ ("0000001: b0200020".toList).length = 17 ∧
        bt ≠ ('0' :: []) ∧ lv ≠ ('0' :: '0' :: '0' :: [])) :=
  ⟨by decide, getBoardInfo_allOrNothing ('1' :: '2' :: '3' :: [])
    "0000001: b0200020".toList _ (by decide)⟩
